import Mathlib

/-!
Verification of the human-in-the-loop research pipeline
(`src/agents/langgraph/agent_hitl.py`) and the news-processing MCP tool
(`src/mcp_servers/simple_mcp_server/server.py`).

The concrete node functions (`human_node`, `researcher_node`) and the graph
wiring are translated directly from the Python source.  The executor
machinery (interrupt replay, merge of node updates via the declared
reducers, session resume) lives in the external LangGraph library, so those
parts are modelled from the specification (sections 4.1, 4.3, 4.4 of the
spec); each such definition is marked `Modelled from the spec`.
-/

/- ----------------------------------------------------------------- -/
/- State model: `ResearchState` from agent_hitl.py lines 30-39.       -/
/- `MessagesState` contributes the `messages` append field; `query`   -/
/- and `final_report` are scalar; `search_context`, `human_feedback`  -/
/- and `messages` are declared with the `add_messages` append reducer. -/
/- Message objects are modelled by their content strings.             -/
/- ----------------------------------------------------------------- -/

structure ResearchState where
  messages : List String
  query : String
  search_context : List String
  human_feedback : List String
  final_report : String
deriving DecidableEq, Repr

/-- A partial update returned by a node: each field optionally present. -/
structure StateUpdate where
  messages : Option (List String)
  query : Option String
  search_context : Option (List String)
  human_feedback : Option (List String)
  final_report : Option String
deriving DecidableEq, Repr

/-- The empty partial update (no field present). -/
def noUpdate : StateUpdate :=
  { messages := none, query := none, search_context := none,
    human_feedback := none, final_report := none }

/-- Modelled from the spec (section 4.1) and the `Annotated[..., add_messages]`
declarations: merging one append-declared field.  If the field is present in
the update its values are concatenated after the current sequence, otherwise
the field is untouched. -/
def mergeAppendField (cur : List String) : Option (List String) → List String
  | none => cur
  | some new => cur ++ new

/-- Modelled from the spec (section 4.1): merging one scalar-declared field.
If present in the update the value replaces the current one (last write
wins), otherwise the field is untouched. -/
def mergeScalarField (cur : String) : Option String → String
  | none => cur
  | some new => new

/-- Modelled from the spec (section 4.1): `Merge(current, update)`, the only
mutation path for the state bag.  Total by construction. -/
def merge (s : ResearchState) (u : StateUpdate) : ResearchState :=
  { messages := mergeAppendField s.messages u.messages
  , query := mergeScalarField s.query u.query
  , search_context := mergeAppendField s.search_context u.search_context
  , human_feedback := mergeAppendField s.human_feedback u.human_feedback
  , final_report := mergeScalarField s.final_report u.final_report }

/- ----------------------------------------------------------------- -/
/- Graph nodes and routing (agent_hitl.py lines 191-200).             -/
/- ----------------------------------------------------------------- -/

/-- The named nodes of the compiled graph, plus the `__start__` node. -/
inductive Node where
  | start
  | researcher
  | human
  | writer
deriving DecidableEq, Repr

/-- The static edges of the compiled graph:
`__start__ -> researcher`, `researcher -> human`; `writer` is the finish
point and `human` has no static successor (agent_hitl.py lines 196-198). -/
def staticEdge : Node → Option Node
  | .start => some .researcher
  | .researcher => some .human
  | .human => none
  | .writer => none

/-- `writer` is the finish point of the graph (agent_hitl.py line 198). -/
def isFinish : Node → Bool
  | .writer => true
  | _ => false

/-- A `Command` return value: a partial update plus an optional dynamic
routing target (`goto`).  A node returning a plain update is modelled by
`goto := none` (follow the static edge). -/
structure Command where
  update : StateUpdate
  goto : Option Node
deriving DecidableEq, Repr

/-- Modelled from the spec (section 4.4): the executor resolves the next
node from a step invocation.  A dynamic `goto` from the step always takes
precedence; the static edge is purely the default. -/
def nextStep (edges : Node → Option Node) (current : Node)
    (goto : Option Node) : Option Node :=
  match goto with
  | some g => some g
  | none => edges current

/-- Python `str.lower()` (ASCII case folding suffices for the inputs the
pipeline compares). -/
def pyLower (s : String) : String :=
  String.mk (s.toList.map Char.toLower)

/- ----------------------------------------------------------------- -/
/- human_node (agent_hitl.py lines 103-126).                          -/
/- ----------------------------------------------------------------- -/

/-- The payload handed to `interrupt` by `human_node` (lines 112-117). -/
structure InterruptPayload where
  search_context : List String
  message : String
deriving DecidableEq, Repr

/-- The payload built by `human_node` before suspending: the current
search context plus a fixed prompt message (lines 112-117). -/
def human_payload (s : ResearchState) : InterruptPayload :=
  { search_context := s.search_context
  , message := "Provide feedback or type \x27done\x27 to finish" }

/-- The part of `human_node` after the `interrupt` call returns
(lines 119-126): if the feedback lowercased is "done", append the literal
"Finalised" to the whole existing feedback list and go to `writer`;
otherwise append the feedback value to the whole existing list and go back
to `researcher`. -/
def human_node (s : ResearchState) (user_feedback : String) : Command :=
  if pyLower user_feedback = "done" then
    { update := { noUpdate with
        human_feedback := some (s.human_feedback ++ ["Finalised"]) }
    , goto := some .writer }
  else
    { update := { noUpdate with
        human_feedback := some (s.human_feedback ++ [user_feedback]) }
    , goto := some .researcher }

/- ----------------------------------------------------------------- -/
/- Theorems for the merge claims.                                     -/
/- ----------------------------------------------------------------- -/

/-- C4: `Merge` is total (it is a Lean function) and, field by field: every
append-declared field present in the update becomes the prior sequence with
the update's values concatenated after it; every scalar-declared field
present in the update is replaced by the update's value; every absent field
is unchanged. -/
theorem merge_field_semantics (s : ResearchState) (u : StateUpdate) :
    (∀ xs, u.messages = some xs → (merge s u).messages = s.messages ++ xs) ∧
    (u.messages = none → (merge s u).messages = s.messages) ∧
    (∀ xs, u.search_context = some xs →
      (merge s u).search_context = s.search_context ++ xs) ∧
    (u.search_context = none →
      (merge s u).search_context = s.search_context) ∧
    (∀ xs, u.human_feedback = some xs →
      (merge s u).human_feedback = s.human_feedback ++ xs) ∧
    (u.human_feedback = none →
      (merge s u).human_feedback = s.human_feedback) ∧
    (∀ x, u.query = some x → (merge s u).query = x) ∧
    (u.query = none → (merge s u).query = s.query) ∧
    (∀ x, u.final_report = some x → (merge s u).final_report = x) ∧
    (u.final_report = none → (merge s u).final_report = s.final_report) := by
  refine ⟨?_, ?_, ?_, ?_, ?_, ?_, ?_, ?_, ?_, ?_⟩ <;>
    intros <;> simp_all [merge, mergeAppendField, mergeScalarField]

/-- Witness for C4 at a concrete state and update. -/
theorem merge_field_semantics_witness :
    (merge { messages := [], query := "q", search_context := ["a"],
             human_feedback := [], final_report := "" }
           { noUpdate with search_context := some ["b"] }).search_context
      = ["a"] ++ ["b"] :=
  (merge_field_semantics _ _).2.2.1 ["b"] rfl

/-- C5: merging two updates that both touch an append-declared field
concatenates in order: the field of `Merge(Merge(s,u1),u2)` is the field of
`s` followed by `u1`'s values and then `u2`'s values (shown for each of the
three append fields). -/
theorem merge_append_assoc (s : ResearchState) (u1 u2 : StateUpdate) :
    (∀ a b, u1.search_context = some a → u2.search_context = some b →
      (merge (merge s u1) u2).search_context = s.search_context ++ a ++ b) ∧
    (∀ a b, u1.human_feedback = some a → u2.human_feedback = some b →
      (merge (merge s u1) u2).human_feedback = s.human_feedback ++ a ++ b) ∧
    (∀ a b, u1.messages = some a → u2.messages = some b →
      (merge (merge s u1) u2).messages = s.messages ++ a ++ b) := by
  refine ⟨?_, ?_, ?_⟩ <;>
    intro a b h1 h2 <;> simp [merge, mergeAppendField, h1, h2]

/-- Witness for C5 at a concrete state and updates. -/
theorem merge_append_assoc_witness :
    (merge (merge { messages := [], query := "q", search_context := ["s"],
                    human_feedback := [], final_report := "" }
                  { noUpdate with search_context := some ["x"] })
           { noUpdate with search_context := some ["y"] }).search_context
      = ["s"] ++ ["x"] ++ ["y"] :=
  (merge_append_assoc _ _ _).1 ["x"] ["y"] rfl rfl

/-- C8: when the feedback lowercased is "done", the human node's update
appends the literal "Finalised" (not the resume value) to the feedback
field; on every other value the resume value itself is appended. -/
theorem human_node_done_records_finalised (s : ResearchState) (v : String) :
    (pyLower v = "done" →
      (human_node s v).update.human_feedback
        = some (s.human_feedback ++ ["Finalised"])) ∧
    (pyLower v ≠ "done" →
      (human_node s v).update.human_feedback
        = some (s.human_feedback ++ [v])) := by
  constructor <;> intro h <;> simp [human_node, h]

/-- Witness for C8: feedback "DoNe" records "Finalised", feedback "more"
records itself. -/
theorem human_node_done_records_finalised_witness :
    ((human_node { messages := [], query := "q", search_context := [],
                   human_feedback := ["f1"], final_report := "" }
        "DoNe").update.human_feedback = some (["f1"] ++ ["Finalised"])) ∧
    ((human_node { messages := [], query := "q", search_context := [],
                   human_feedback := ["f1"], final_report := "" }
        "more").update.human_feedback = some (["f1"] ++ ["more"])) :=
  ⟨(human_node_done_records_finalised _ "DoNe").1 (by decide),
   (human_node_done_records_finalised _ "more").2 (by decide)⟩

/-- C9: the human node's update carries the whole existing feedback list
plus one new element, so after the append-reducer merge every prior entry
occurs twice: the merged feedback field is the prior list, then the prior
list again, then the new element, and each value's occurrence count doubles
(plus one if it equals the new element). -/
theorem human_node_feedback_duplication (s : ResearchState) (v : String) :
    (merge s (human_node s v).update).human_feedback
      = s.human_feedback ++ s.human_feedback
          ++ [if pyLower v = "done" then "Finalised" else v] ∧
    ∀ x : String,
      ((merge s (human_node s v).update).human_feedback).count x
        = 2 * s.human_feedback.count x
            + [if pyLower v = "done" then "Finalised" else v].count x := by
  by_cases h : pyLower v = "done" <;>
    simp [merge, mergeAppendField, mergeScalarField, human_node, h,
      List.count_append, Nat.two_mul, Nat.add_assoc]

/- ----------------------------------------------------------------- -/
/- C1: dynamic routing from the human node.                           -/
/- ----------------------------------------------------------------- -/

/-- C1: for every delivered resume value, the human node routes to
`writer` exactly when the value lowercased is "done" and to `researcher`
otherwise, and this `goto` determines the executor's next step whatever
the static edge function says (quantified over arbitrary edge maps). -/
theorem human_routing_overrides_static (s : ResearchState) (v : String) :
    (pyLower v = "done" → (human_node s v).goto = some Node.writer) ∧
    (pyLower v ≠ "done" → (human_node s v).goto = some Node.researcher) ∧
    ∀ edges : Node → Option Node,
      nextStep edges Node.human (human_node s v).goto
        = some (if pyLower v = "done" then Node.writer else Node.researcher) := by
  refine ⟨?_, ?_, ?_⟩
  · intro h; simp [human_node, h]
  · intro h; simp [human_node, h]
  · intro edges
    by_cases h : pyLower v = "done" <;> simp [human_node, nextStep, h]

/-- Witness for C1 at concrete feedback values "DONE" and "revise", with a
static edge map that disagrees with both routing targets. -/
theorem human_routing_overrides_static_witness :
    ((human_node { messages := [], query := "q", search_context := [],
                   human_feedback := [], final_report := "" }
        "DONE").goto = some Node.writer) ∧
    ((human_node { messages := [], query := "q", search_context := [],
                   human_feedback := [], final_report := "" }
        "revise").goto = some Node.researcher) ∧
    nextStep (fun _ => some Node.start) Node.human
        (human_node { messages := [], query := "q", search_context := [],
                      human_feedback := [], final_report := "" } "DONE").goto
      = some (if pyLower "DONE" = "done" then Node.writer else Node.researcher) :=
  ⟨(human_routing_overrides_static _ "DONE").1 (by decide),
   (human_routing_overrides_static _ "revise").2.1 (by decide),
   (human_routing_overrides_static _ "DONE").2.2 (fun _ => some Node.start)⟩

/- ----------------------------------------------------------------- -/
/- The interrupt / replay protocol (spec section 4.3).                -/
/- ----------------------------------------------------------------- -/

/-- Modelled from the spec (section 4.3): a step body as it interacts with
the `Await` primitive.  `done` finishes with a result; `await p k` requests
suspension with payload `p` and continues as `k v` once a resume value `v`
is available.  Collaborator calls are fixed deterministic functions folded
into the body. -/
inductive Body (α : Type) : Type where
  | done : α → Body α
  | await : InterruptPayload → (String → Body α) → Body α

/-- Modelled from the spec (section 4.3): replaying a step body against the
recorded cursor of resume values.  Each `await` consumes the next recorded
value if one exists; if the cursor is exhausted the body suspends with that
await's payload. -/
def replay {α : Type} : Body α → List String → InterruptPayload ⊕ α
  | .done a, _ => .inr a
  | .await p _, [] => .inl p
  | .await _ k, v :: vs => replay (k v) vs

/-- Modelled from the spec (section 4.3): the sequence of suspension
payloads observed while replaying a body against a cursor — the payload of
every `await` reached, including the one at which the run suspends. -/
def payloadTrace {α : Type} : Body α → List String → List InterruptPayload
  | .done _, _ => []
  | .await p _, [] => [p]
  | .await p k, v :: vs => p :: payloadTrace (k v) vs

/-- The body of `human_node` (lines 103-126): one `interrupt` call whose
payload is built from the current state, then the post-interrupt code. -/
def human_body (s : ResearchState) : Body Command :=
  .await (human_payload s) (fun v => .done (human_node s v))

/-- C2: replay determinism.  For any step body, if one cursor is a prefix
of another then the payload sequence observed under the first is a prefix
of that observed under the second: an identical prefix of resume values
reproduces identical payloads at each suspension point. -/
theorem replay_payload_determinism {α : Type} (b : Body α)
    (r1 r2 : List String) (h : ∃ t, r1 ++ t = r2) :
    ∃ u, payloadTrace b r1 ++ u = payloadTrace b r2 := by
  obtain ⟨t, rfl⟩ := h
  induction r1 generalizing b with
  | nil =>
    cases b with
    | done a => exact ⟨[], rfl⟩
    | await p k =>
      cases t with
      | nil => exact ⟨[], rfl⟩
      | cons v vs => exact ⟨payloadTrace (k v) vs, rfl⟩
  | cons v vs ih =>
    cases b with
    | done a => exact ⟨[], rfl⟩
    | await p k =>
      obtain ⟨u, hu⟩ := ih (k v)
      exact ⟨u, by simpa [payloadTrace] using congrArg (p :: ·) hu⟩

/-- Witness for C2: the human node's body replayed with the empty cursor
and with one recorded value yields the same (single) suspension payload. -/
theorem replay_payload_determinism_witness :
    ∃ u, payloadTrace
        (human_body { messages := [], query := "q", search_context := ["c"],
                      human_feedback := [], final_report := "" }) []
      ++ u
      = payloadTrace
          (human_body { messages := [], query := "q", search_context := ["c"],
                        human_feedback := [], final_report := "" }) ["more"] :=
  replay_payload_determinism _ [] ["more"] ⟨["more"], rfl⟩

/- ----------------------------------------------------------------- -/
/- C3: a step's update is merged exactly once.                        -/
/- ----------------------------------------------------------------- -/

/-- Modelled from the spec (section 4.3): driving one step invocation from
the checkpointed state `s`.  `cursor` is the list of resume values already
recorded; `pending` are the resume values the caller will supply, one per
suspension.  Each resume re-invokes the body from its beginning against
`s`; the state is only changed when the body finishes, by a single merge
of its final update. -/
def drive (s : ResearchState) (b : Body Command) :
    List String → List String → ResearchState × Option Command
  | cursor, [] =>
    match replay b cursor with
    | .inl _ => (s, none)
    | .inr c => (merge s c.update, some c)
  | cursor, v :: pending =>
    match replay b cursor with
    | .inl _ => drive s b (cursor ++ [v]) pending
    | .inr c => (merge s c.update, some c)

/-- C3: across any number of suspension/resume rounds of one step
invocation, the state bag is untouched while the step keeps suspending, and
when the step finally completes the result is exactly one merge of the
checkpointed state with the completed run's final update. -/
theorem step_update_merged_exactly_once (s : ResearchState)
    (b : Body Command) (cursor pending : List String) :
    ((drive s b cursor pending).2 = none →
      (drive s b cursor pending).1 = s) ∧
    (∀ c : Command, (drive s b cursor pending).2 = some c →
      (drive s b cursor pending).1 = merge s c.update ∧
        ∃ cur : List String, replay b cur = Sum.inr c) := by
  induction pending generalizing cursor with
  | nil =>
    constructor
    · intro h
      cases hr : replay b cursor <;> simp [drive, hr] at h ⊢
    · intro c h
      cases hr : replay b cursor <;> simp [drive, hr] at h ⊢
      exact ⟨by simp [h], cursor, by simp [hr, h]⟩
  | cons v pending ih =>
    constructor
    · intro h
      cases hr : replay b cursor with
      | inl p =>
        have := (ih (cursor ++ [v])).1
        simp [drive, hr] at h ⊢
        exact this h
      | inr c => simp [drive, hr] at h
    · intro c h
      cases hr : replay b cursor with
      | inl p =>
        have := (ih (cursor ++ [v])).2 c
        simp [drive, hr] at h ⊢
        exact this h
      | inr c2 =>
        simp [drive, hr] at h ⊢
        exact ⟨by simp [h], cursor, by simp [hr, h]⟩

/-- Witness for C3: a session of the human body that suspends once and is
then resumed with "done" merges the completing run's update exactly once. -/
theorem step_update_merged_exactly_once_witness :
    (drive { messages := [], query := "q", search_context := [],
             human_feedback := ["f"], final_report := "" }
          (human_body { messages := [], query := "q", search_context := [],
                        human_feedback := ["f"], final_report := "" })
          [] ["done"]).1
      = merge { messages := [], query := "q", search_context := [],
                human_feedback := ["f"], final_report := "" }
          (human_node { messages := [], query := "q", search_context := [],
                        human_feedback := ["f"], final_report := "" }
            "done").update ∧
    ∃ cur : List String,
      replay (human_body { messages := [], query := "q", search_context := [],
                           human_feedback := ["f"], final_report := "" }) cur
        = Sum.inr (human_node { messages := [], query := "q",
                                search_context := [], human_feedback := ["f"],
                                final_report := "" } "done") :=
  (step_update_merged_exactly_once _ _ [] ["done"]).2
    (human_node { messages := [], query := "q", search_context := [],
                  human_feedback := ["f"], final_report := "" } "done")
    (by decide)

/- ----------------------------------------------------------------- -/
/- researcher_node (agent_hitl.py lines 44-101).                      -/
/- Collaborators are parameters: `search` is the Tavily tool (a fixed -/
/- deterministic function per the spec), `complete` the LLM call      -/
/- `Complete(systemPrompt, userPrompt)`.                              -/
/- ----------------------------------------------------------------- -/

/-- One Tavily search result (the fields the node reads: url, title,
content). -/
structure SearchResult where
  url : String
  title : String
  content : String
deriving DecidableEq, Repr

/-- The formatted context string built by `researcher_node` (lines 57-59):
one block per result, joined by blank lines, snippets truncated to 300
characters. -/
def context_string (results : List SearchResult) : String :=
  String.intercalate "\n\n"
    (results.map (fun r =>
      "Source: " ++ r.url ++ "\nTitle: " ++ r.title ++ "\nSnippet: "
        ++ (String.mk (r.content.toList.take 300)) ++ "..."))

/-- The researcher system persona (lines 62-67). -/
def researcher_persona : String :=
  "You are a Senior Web Researcher. Your goal is to gather the latest and most relevant "
    ++ "information about the user\x27s query and format it as a comprehensive summary. "
    ++ "You are an expert at utilizing the Tavily web search tool to find real-time, accurate, "
    ++ "and cited information on any given topic. Your output must be precise and well-structured."

/-- The researcher instruction prompt (lines 69-87), parameterised by the
query, the most recent feedback line and the formatted research context.
The surrounding whitespace of the Python triple-quoted string is kept
implicit; only the interpolated data matters to the claims. -/
def researcher_instruction (query feedback_line ctx : String) : String :=
  "TASK: Conduct an \x27advanced\x27 web search for the user\x27s query: \x27"
    ++ query ++ "\x27. \n\n        Human Feedback: " ++ feedback_line
    ++ "\n\n        Focus on recent developments and list all sources used in the final summary. "
    ++ "\n        \n        Consider previous human feedback to refine the reponse."
    ++ "\n        \n        The final output MUST be a single, well-structured text summary of findings, "
    ++ "\n        using ONLY the context provided below. Expected output: A comprehensive, cited summary."
    ++ "\n\n        RESEARCH CONTEXT:\n        ---\n        " ++ ctx
    ++ "\n        ---\n        "

/-- The feedback line interpolated into the instruction (lines 52 and 73):
the last feedback entry, with fallbacks for a missing key (modelled as the
empty list) and an empty list. -/
def feedback_line (human_feedback : List String) : String :=
  match human_feedback.getLast? with
  | some f => f
  | none => "No feedback yet"

/-- The summary produced by `researcher_node` (lines 89-95): the LLM
completion of the persona and instruction prompts, where the instruction
embeds the formatted results of the Tavily search on the state's query. -/
def researcher_summary (search : String → List SearchResult)
    (complete : String → String → String) (s : ResearchState) : String :=
  complete researcher_persona
    (researcher_instruction s.query (feedback_line s.human_feedback)
      (context_string (search s.query)))

/-- `researcher_node` (lines 44-101): runs the search and the completion
and returns an update containing exactly one new `search_context` entry,
the synthesized summary (line 101). -/
def researcher_node (search : String → List SearchResult)
    (complete : String → String → String) (s : ResearchState) : StateUpdate :=
  { noUpdate with
    search_context := some [researcher_summary search complete s] }

/-- C6: resuming with a non-"done" feedback value routes back to the
researcher, and the researcher's re-invocation of Search and Complete
appends exactly one new entry to `search_context`: the merged sequence is
the prior sequence plus one element, so its length grows by one and all
prior entries are unchanged, in order. -/
theorem feedback_round_appends_one_entry
    (search : String → List SearchResult)
    (complete : String → String → String)
    (s : ResearchState) (v : String) (h : pyLower v ≠ "done") :
    (human_node s v).goto = some Node.researcher ∧
    (merge (merge s (human_node s v).update)
        (researcher_node search complete
          (merge s (human_node s v).update))).search_context
      = s.search_context
          ++ [researcher_summary search complete
                (merge s (human_node s v).update)] ∧
    (merge (merge s (human_node s v).update)
        (researcher_node search complete
          (merge s (human_node s v).update))).search_context.length
      = s.search_context.length + 1 := by
  refine ⟨by simp [human_node, h], ?_, ?_⟩ <;>
    simp [human_node, h, researcher_node, merge, mergeAppendField,
      mergeScalarField, noUpdate]

/-- Witness for C6 at a concrete state, feedback value and collaborators. -/
theorem feedback_round_appends_one_entry_witness :
    (human_node { messages := [], query := "q", search_context := ["c1"],
                  human_feedback := [], final_report := "" }
        "add detail").goto = some Node.researcher ∧
    (merge (merge { messages := [], query := "q", search_context := ["c1"],
                    human_feedback := [], final_report := "" }
              (human_node { messages := [], query := "q",
                            search_context := ["c1"], human_feedback := [],
                            final_report := "" } "add detail").update)
        (researcher_node (fun _ => []) (fun _ _ => "summary")
          (merge { messages := [], query := "q", search_context := ["c1"],
                   human_feedback := [], final_report := "" }
            (human_node { messages := [], query := "q",
                          search_context := ["c1"], human_feedback := [],
                          final_report := "" } "add detail").update))).search_context
      = ["c1"]
          ++ [researcher_summary (fun _ => []) (fun _ _ => "summary")
                (merge { messages := [], query := "q",
                         search_context := ["c1"], human_feedback := [],
                         final_report := "" }
                  (human_node { messages := [], query := "q",
                                search_context := ["c1"],
                                human_feedback := [], final_report := "" }
                    "add detail").update)] ∧
    (merge (merge { messages := [], query := "q", search_context := ["c1"],
                    human_feedback := [], final_report := "" }
              (human_node { messages := [], query := "q",
                            search_context := ["c1"], human_feedback := [],
                            final_report := "" } "add detail").update)
        (researcher_node (fun _ => []) (fun _ _ => "summary")
          (merge { messages := [], query := "q", search_context := ["c1"],
                   human_feedback := [], final_report := "" }
            (human_node { messages := [], query := "q",
                          search_context := ["c1"], human_feedback := [],
                          final_report := "" } "add detail").update))).search_context.length
      = (["c1"] : List String).length + 1 :=
  feedback_round_appends_one_entry (fun _ => []) (fun _ _ => "summary")
    { messages := [], query := "q", search_context := ["c1"],
      human_feedback := [], final_report := "" } "add detail" (by decide)

/- ----------------------------------------------------------------- -/
/- C7: resume-time session validation (spec sections 4.3, 4.5, 7).    -/
/- ----------------------------------------------------------------- -/

/-- Modelled from the spec (section 3): a persisted checkpoint — the state
bag, the cursor of recorded resume values and the step currently suspended
at. -/
structure Checkpoint where
  stateBag : ResearchState
  cursor : List String
  currentStep : Node
deriving DecidableEq, Repr

/-- Modelled from the spec (sections 3 and 4.3): the status the store keeps
per session — still suspended at a checkpoint, or finished with a final
state bag. -/
inductive SessionStatus where
  | suspendedAt : Checkpoint → SessionStatus
  | finished : ResearchState → SessionStatus
deriving DecidableEq, Repr

/-- Modelled from the spec (section 4.5): the checkpointer's keyed store,
an association list from session id to session status. -/
def SessionStore : Type := List (String × SessionStatus)

/-- Modelled from the spec (sections 4.3 and 7): the outcome of a resume
call — one of the two misuse errors, or re-entry into the executor. -/
inductive ResumeOutcome where
  | errSessionNotFound
  | errSessionAlreadyComplete
  | resumed : SessionStatus → ResumeOutcome
deriving DecidableEq, Repr

/-- Modelled from the spec (sections 4.3, 4.5 and 7): `Resume(sessionId,
resumeValue)`.  An unknown id fails with `SessionNotFound`; a session that
already reached a terminal node fails with `SessionAlreadyComplete`; in
both cases the store is returned untouched and no run is started.  Only a
suspended session re-enters the executor, abstracted here as `runner`
(which appends the resume value to the cursor and re-invokes the step). -/
def resumeSession (runner : Checkpoint → String → SessionStatus)
    (store : SessionStore) (sid v : String) :
    ResumeOutcome × SessionStore :=
  match List.lookup sid store with
  | none => (.errSessionNotFound, store)
  | some (.finished _) => (.errSessionAlreadyComplete, store)
  | some (.suspendedAt chk) =>
    let st := runner chk v
    (.resumed st, store.map (fun e => if e.1 = sid then (sid, st) else e))

/-- C7: resuming an unknown session id fails with `SessionNotFound` and
resuming an already-finished session fails with `SessionAlreadyComplete`;
in both cases the stored run state is returned exactly as it was (so no
fresh run is silently started), for every executor re-entry function. -/
theorem resume_error_policy (runner : Checkpoint → String → SessionStatus)
    (store : SessionStore) (sid v : String) :
    (List.lookup sid store = none →
      resumeSession runner store sid v
        = (ResumeOutcome.errSessionNotFound, store)) ∧
    (∀ final : ResearchState,
      List.lookup sid store = some (.finished final) →
      resumeSession runner store sid v
        = (ResumeOutcome.errSessionAlreadyComplete, store)) := by
  constructor
  · intro h
    simp [resumeSession, h]
  · intro final h
    simp [resumeSession, h]

/-- Witness for C7 on a concrete one-session store: an unknown id and a
finished id both fail and leave the store untouched. -/
theorem resume_error_policy_witness :
    (resumeSession (fun chk _ => SessionStatus.suspendedAt chk)
        [("s1", SessionStatus.finished
            { messages := [], query := "q", search_context := [],
              human_feedback := [], final_report := "r" })] "s2" "done"
      = (ResumeOutcome.errSessionNotFound,
         [("s1", SessionStatus.finished
             { messages := [], query := "q", search_context := [],
               human_feedback := [], final_report := "r" })])) ∧
    (resumeSession (fun chk _ => SessionStatus.suspendedAt chk)
        [("s1", SessionStatus.finished
            { messages := [], query := "q", search_context := [],
              human_feedback := [], final_report := "r" })] "s1" "done"
      = (ResumeOutcome.errSessionAlreadyComplete,
         [("s1", SessionStatus.finished
             { messages := [], query := "q", search_context := [],
               human_feedback := [], final_report := "r" })])) :=
  ⟨(resume_error_policy (fun chk _ => SessionStatus.suspendedAt chk)
      [("s1", SessionStatus.finished
          { messages := [], query := "q", search_context := [],
            human_feedback := [], final_report := "r" })] "s2" "done").1
    (by decide),
   (resume_error_policy (fun chk _ => SessionStatus.suspendedAt chk)
      [("s1", SessionStatus.finished
          { messages := [], query := "q", search_context := [],
            human_feedback := [], final_report := "r" })] "s1" "done").2
    { messages := [], query := "q", search_context := [],
      human_feedback := [], final_report := "r" } (by decide)⟩

/- ----------------------------------------------------------------- -/
/- convert_to_bullet_points (simple_mcp_server/server.py lines 19-60). -/
/- Text is modelled as a list of characters.                          -/
/- ----------------------------------------------------------------- -/

/-- Python whitespace as matched by `str.strip()` and `\s` on the ASCII
range: space, tab, newline, carriage return, vertical tab, form feed. -/
def pyIsSpace (c : Char) : Bool :=
  (c == ' ') || (c == '\t') || (c == '\n') || (c == '\r')
    || (c == '\x0B') || (c == '\x0C')

/-- The sentence separators of the regex `[.!?]+`. -/
def isSentSep (c : Char) : Bool :=
  (c == '.') || (c == '!') || (c == '?')

/-- Python `str.strip()`: drop leading and trailing whitespace. -/
def pyStrip (l : List Char) : List Char :=
  ((l.dropWhile pyIsSpace).reverse.dropWhile pyIsSpace).reverse

/-- `re.split(r"[.!?]+", text)`, recursing with a flag that records whether
the previous character belonged to a separator run: the first separator of
a run ends the current segment, further separators of the same run are
absorbed into the same delimiter. -/
def reSplitAux : Bool → List Char → List (List Char)
  | _, [] => [[]]
  | inRun, c :: cs =>
    if isSentSep c then
      if inRun then reSplitAux true cs
      else [] :: reSplitAux true cs
    else
      match reSplitAux false cs with
      | [] => [[c]]
      | s :: r => (c :: s) :: r

/-- `re.split(r"[.!?]+", text)` (line 35): each maximal run of separator
characters counts as a single delimiter. -/
def reSplitSents (l : List Char) : List (List Char) :=
  reSplitAux false l

/-- `re.sub(r"\s+", " ", sentence)` (line 49): replace each maximal run of
whitespace by a single space.  The flag records whether the previous
character was whitespace. -/
def collapseWSAux : Bool → List Char → List Char
  | _, [] => []
  | prevWS, c :: cs =>
    if pyIsSpace c then
      if prevWS then collapseWSAux true cs
      else ' ' :: collapseWSAux true cs
    else c :: collapseWSAux false cs

/-- `re.sub(r"\s+", " ", sentence)` applied to a whole string. -/
def collapseWS (l : List Char) : List Char :=
  collapseWSAux false l

/-- The per-sentence cleanup of lines 48-49: replace newlines and carriage
returns by spaces, collapse whitespace runs, strip. -/
def cleanSentence (s : List Char) : List Char :=
  pyStrip (collapseWS (s.map (fun c =>
    if c = '\n' ∨ c = '\r' then ' ' else c)))

/-- Line 36: the sentences kept for bulleting — each split segment whose
stripped form is nonempty and longer than 20 characters, stripped. -/
def sentencesOf (text : List Char) : List (List Char) :=
  (reSplitSents text).filterMap (fun s =>
    if pyStrip s ≠ [] ∧ 20 < (pyStrip s).length
    then some (pyStrip s) else none)

/-- Lines 45-52: the bullet strings — each kept sentence (up to
`max_points` of them, line 42), cleaned, prefixed with a bullet marker if
still nonempty (line 51). -/
def bulletsOf (text : List Char) (max_points : Nat) : List (List Char) :=
  ((sentencesOf text).take max_points).filterMap (fun s =>
    if cleanSentence s ≠ []
    then some ('•' :: ' ' :: cleanSentence s) else none)

/-- Python `"\n".join` (line 57). -/
def joinNl : List (List Char) → List Char
  | [] => []
  | [b] => b
  | b :: b2 :: bs => b ++ '\n' :: joinNl (b2 :: bs)

/-- The literal returned for empty or whitespace-only input (line 32). -/
def msgNoContent : List Char :=
  "No content provided to convert to bullet points.".toList

/-- The literal returned when no sentence survives the filter (line 39). -/
def msgUnable : List Char :=
  "• Unable to extract meaningful content for bullet points.".toList

/-- The literal returned when no bullet survives the cleanup (line 55). -/
def msgNoValid : List Char :=
  "• No valid content found to convert to bullet points.".toList

/-- `convert_to_bullet_points` (lines 19-60).  Every operation in the body
is total, so the `except` branch of the source is unreachable and the
function is modelled as total. -/
def convert_to_bullet_points (text : List Char) (max_points : Nat) :
    List Char :=
  if pyStrip text = [] then msgNoContent
  else if sentencesOf text = [] then msgUnable
  else if bulletsOf text max_points = [] then msgNoValid
  else joinNl (bulletsOf text max_points)

/-- Splitting a character list at every character satisfying `p` (used to
enumerate the lines of an output string). -/
def splitOnChar (p : Char → Bool) : List Char → List (List Char)
  | [] => [[]]
  | c :: cs =>
    if p c then [] :: splitOnChar p cs
    else
      match splitOnChar p cs with
      | [] => [[c]]
      | s :: r => (c :: s) :: r

/-- A line is a bullet line when it starts with the bullet marker. -/
def startsBullet : List Char → Bool
  | '•' :: _ => true
  | _ => false

/-- The number of bullet lines of an output string: the lines (split at
newlines) that start with the bullet marker. -/
def bulletLineCount (out : List Char) : Nat :=
  ((splitOnChar (fun c => c == '\n') out).filter startsBullet).length

/- ----------------------------------------------------------------- -/
/- Helper lemmas for the line structure of the tool's output.         -/
/- ----------------------------------------------------------------- -/

/-- `splitOnChar` always yields at least one segment. -/
theorem splitOnChar_ne_nil (p : Char → Bool) (l : List Char) :
    splitOnChar p l ≠ [] := by
  cases l with
  | nil => simp [splitOnChar]
  | cons c cs =>
    cases hpc : p c
    · simp only [splitOnChar, hpc, Bool.false_eq_true, if_false]
      cases splitOnChar p cs <;> simp
    · simp [splitOnChar, hpc]

/-- Prepending separator-free characters extends the first segment of a
split and leaves the rest alone. -/
theorem splitOnChar_append_clean (p : Char → Bool) (b : List Char)
    (hb : ∀ c ∈ b, p c = false) :
    ∀ l s r, splitOnChar p l = s :: r →
      splitOnChar p (b ++ l) = (b ++ s) :: r := by
  induction b with
  | nil => intro l s r h; simpa using h
  | cons c b ih =>
    intro l s r h
    have hc : p c = false := hb c (by simp)
    have hrec := ih (fun x hx => hb x (by simp [hx])) l s r h
    simp only [List.cons_append, splitOnChar, hc, Bool.false_eq_true,
      if_false]
    have hrec2 : splitOnChar p (b.append l) = (b ++ s) :: r := hrec
    rw [hrec2]

/-- A separator-free string is a single segment. -/
theorem splitOnChar_clean (p : Char → Bool) (b : List Char)
    (hb : ∀ c ∈ b, p c = false) : splitOnChar p b = [b] := by
  have h := splitOnChar_append_clean p b hb [] [] [] (by simp [splitOnChar])
  simpa using h

/-- Splitting a `joinNl` of newline-free pieces recovers the pieces. -/
theorem splitOnChar_joinNl (bs : List (List Char)) (hne : bs ≠ [])
    (hb : ∀ b ∈ bs, ∀ c ∈ b, (c == '\n') = false) :
    splitOnChar (fun c => c == '\n') (joinNl bs) = bs := by
  induction bs with
  | nil => cases hne rfl
  | cons b bs ih =>
    cases bs with
    | nil =>
      simpa [joinNl] using splitOnChar_clean _ b (hb b (by simp))
    | cons b2 bs2 =>
      have hrest := ih (by simp) (fun x hx => hb x (by simp [hx]))
      have hnl : splitOnChar (fun c => c == '\n')
          ('\n' :: joinNl (b2 :: bs2)) = [] :: b2 :: bs2 := by
        simp only [splitOnChar]
        simp [hrest]
      have := splitOnChar_append_clean (fun c => c == '\n') b
        (hb b (by simp)) ('\n' :: joinNl (b2 :: bs2)) [] (b2 :: bs2) hnl
      simpa [joinNl] using this

/-- Every character emitted by the whitespace collapse is a plain space or
a non-whitespace character. -/
theorem mem_collapseWSAux (c : Char) :
    ∀ (flag : Bool) (l : List Char), c ∈ collapseWSAux flag l →
      c = ' ' ∨ pyIsSpace c = false := by
  intro flag l
  induction l generalizing flag with
  | nil => intro h; simp [collapseWSAux] at h
  | cons a as ih =>
    intro h
    cases hpa : pyIsSpace a with
    | false =>
      simp [collapseWSAux, hpa] at h
      rcases h with h1 | h1
      · subst h1; exact Or.inr hpa
      · exact ih false h1
    | true =>
      cases flag with
      | true =>
        simp [collapseWSAux, hpa] at h
        exact ih true h
      | false =>
        simp [collapseWSAux, hpa] at h
        rcases h with h1 | h1
        · exact Or.inl h1
        · exact ih true h1

/-- Stripping only removes characters. -/
theorem mem_pyStrip (l : List Char) (c : Char) (h : c ∈ pyStrip l) :
    c ∈ l := by
  rw [pyStrip] at h
  rw [List.mem_reverse] at h
  have h2 := (List.dropWhile_suffix pyIsSpace).mem h
  rw [List.mem_reverse] at h2
  exact (List.dropWhile_suffix pyIsSpace).mem h2

/-- A cleaned sentence contains no newline. -/
theorem newline_notin_cleanSentence (s : List Char) :
    ∀ c ∈ cleanSentence s, (c == '\n') = false := by
  intro c hc
  have h1 := mem_pyStrip _ _ hc
  rcases mem_collapseWSAux c false _ h1 with h | h
  · subst h; decide
  · cases hcn : c == '\n'
    · rfl
    · exfalso
      have : c = '\n' := by
        have := eq_of_beq hcn
        exact this
      subst this
      simp [pyIsSpace] at h

/-- Every kept sentence is longer than 20 characters: the filter of line 36
admits only stripped segments above that length. -/
theorem mem_sentencesOf_length (text : List Char) (s : List Char)
    (h : s ∈ sentencesOf text) : 20 < s.length := by
  rw [sentencesOf, List.mem_filterMap] at h
  obtain ⟨a, _, ha⟩ := h
  by_cases hc : pyStrip a ≠ [] ∧ 20 < (pyStrip a).length
  · rw [if_pos hc] at ha
    cases ha
    exact hc.2
  · rw [if_neg hc] at ha
    cases ha

/-- Every emitted bullet is the bullet marker followed by the cleanup of a
kept sentence, which is longer than 20 characters. -/
theorem mem_bulletsOf (text : List Char) (mp : Nat) (l : List Char)
    (h : l ∈ bulletsOf text mp) :
    ∃ s, s ∈ sentencesOf text ∧ 20 < s.length ∧
      l = '•' :: ' ' :: cleanSentence s := by
  rw [bulletsOf, List.mem_filterMap] at h
  obtain ⟨a, hmem, ha⟩ := h
  have hmem2 := List.mem_of_mem_take hmem
  by_cases hc : cleanSentence a ≠ []
  · rw [if_pos hc] at ha
    cases ha
    exact ⟨a, hmem2, mem_sentencesOf_length text a hmem2, rfl⟩
  · rw [if_neg hc] at ha
    cases ha

/-- At most `max_points` bullets are emitted. -/
theorem bulletsOf_length_le (text : List Char) (mp : Nat) :
    (bulletsOf text mp).length ≤ mp :=
  le_trans (List.length_filterMap_le _ _)
    (le_trans (le_of_eq (List.length_take mp (sentencesOf text)))
      (Nat.min_le_left _ _))

/-- C10 counterexample: with `max_points = 0` and a non-whitespace input
whose one sentence is long enough, the tool returns the fallback
"• No valid content found..." message, which is one bullet line — more
than `max_points`.  The claim's bound fails at `max_points = 0`. -/
theorem convert_bullet_cap_counterexample :
    ¬ (bulletLineCount (convert_to_bullet_points
        ("This sentence is definitely longer than twenty characters.".toList)
        0) ≤ 0) := by
  decide

/-- C10 (amended to `max_points ≥ 1`): `convert_to_bullet_points` is total
(a Lean function); on empty-or-whitespace input it returns exactly the
"No content provided..." literal; otherwise its output has at most
`max_points` bullet lines; and every emitted bullet comes from a kept
sentence, each of which is strictly longer than 20 characters after
stripping — so every sentence of 20 characters or fewer is excluded. -/
theorem convert_bullet_points_spec (text : List Char) (mp : Nat)
    (hmp : 1 ≤ mp) :
    (pyStrip text = [] → convert_to_bullet_points text mp = msgNoContent) ∧
    (pyStrip text ≠ [] →
      bulletLineCount (convert_to_bullet_points text mp) ≤ mp) ∧
    (∀ l ∈ bulletsOf text mp, ∃ s, s ∈ sentencesOf text ∧ 20 < s.length ∧
      l = '•' :: ' ' :: cleanSentence s) := by
  refine ⟨?_, ?_, fun l hl => mem_bulletsOf text mp l hl⟩
  · intro h
    rw [convert_to_bullet_points, if_pos h]
  · intro h
    rw [convert_to_bullet_points, if_neg h]
    by_cases h2 : sentencesOf text = []
    · rw [if_pos h2]
      have h1 : bulletLineCount msgUnable = 1 := by decide
      omega
    · rw [if_neg h2]
      by_cases h3 : bulletsOf text mp = []
      · rw [if_pos h3]
        have h1 : bulletLineCount msgNoValid = 1 := by decide
        omega
      · rw [if_neg h3]
        have hb : ∀ b ∈ bulletsOf text mp, ∀ c ∈ b, (c == '\n') = false := by
          intro b hbm c hc
          obtain ⟨s, _, _, rfl⟩ := mem_bulletsOf text mp b hbm
          rcases List.mem_cons.mp hc with h1 | h1
          · subst h1; decide
          · rcases List.mem_cons.mp h1 with h4 | h4
            · subst h4; decide
            · exact newline_notin_cleanSentence s c h4
        rw [bulletLineCount, splitOnChar_joinNl (bulletsOf text mp) h3 hb]
        exact le_trans (List.length_filter_le _ _)
          (bulletsOf_length_le text mp)

/-- Witness for C10 at a concrete text and `max_points = 1`. -/
theorem convert_bullet_points_spec_witness :
    bulletLineCount (convert_to_bullet_points
      ("This sentence is definitely longer than twenty characters.".toList)
      1) ≤ 1 :=
  (convert_bullet_points_spec
    ("This sentence is definitely longer than twenty characters.".toList)
    1 (by decide)).2.1 (by decide)
